import Mathlib

/-!
Verification of the provider/validation/rate-limiting core of the
`ai-stock-research` repository, shallowly embedded in Lean 4.

Conventions of the embedding:
* Python floats used by the core logic (token-bucket allowances, prices,
  timestamps) are modelled as rationals `ℚ`; every arithmetic operation
  performed by the code on these values in the scenarios proved below is
  exact in IEEE double precision, so the rational model is faithful there.
* Python exceptions become explicit `Except` / `Option` results; the
  distinct exception classes of `exceptions.py` (plus the builtin
  `ValueError`) become constructors of `AppError`.
* Network transports (the yfinance library calls and the Polygon MCP
  client calls) are injected as function / `Except` parameters, so that a
  provider operation becomes a pure function of the upstream responses;
  the number and order of upstream requests it issues is returned
  explicitly so that call-count properties can be stated.
* Python `dict`s keyed by strings become association lists with
  first-occurrence update (`dinsert`) and first-match lookup (`dlookup`),
  which coincides with `dict` semantics for the maps built here.
-/

/-- Association-list lookup, modelling Python `dict` lookup / `in`. -/
def dlookup {α : Type} : List (String × α) → String → Option α
  | [], _ => none
  | (a, b) :: rest, k => if a = k then some b else dlookup rest k

/-- Association-list update, modelling Python `dict` assignment: replaces
the (unique) existing binding in place, else appends a new binding. -/
def dinsert {α : Type} : List (String × α) → String → α → List (String × α)
  | [], k, v => [(k, v)]
  | (a, b) :: rest, k, v =>
      if a = k then (k, v) :: rest else (a, b) :: dinsert rest k v

/-- The application's error taxonomy (`exceptions.py`), plus the Python
builtin `ValueError` used by `validation.py` and `providers/factory.py`. -/
inductive AppError where
  | configurationError
  | valueError
  | invalidTicker (ticker : String)
  | dataNotFound
  | providerError
  | providerConnectionError
  | rateLimitExceeded (limit : ℚ) (window : ℚ)
deriving DecidableEq, Repr

/-! ## Validation (`validation.py`) -/

/-- Python `str.upper` on a single character (ASCII case mapping; the
multi-codepoint Unicode expansions of `str.upper` do not arise for any
character that can contribute to a `[A-Z]` match and are out of scope). -/
def pyUpperChar (c : Char) : Char :=
  if 'a' ≤ c ∧ c ≤ 'z' then Char.ofNat (c.toNat - 32) else c

/-- Python `str.upper` applied characterwise. -/
def pyUpper (s : String) : String := String.mk (s.data.map pyUpperChar)

/-- Character class `[A-Z]`. -/
def isUpperAZ (c : Char) : Bool := decide ('A' ≤ c) && decide (c ≤ 'Z')

/-- Python `re` end anchor `$` (without `re.MULTILINE`): matches at the end
of the string, or just before a newline at the end of the string. -/
def dollarEnd (s : List Char) : Bool := decide (s = []) || decide (s = ['\n'])

/-- Backtracking matcher for the Python regex `[A-Z]{1,n}$` starting at the
current position: consume one `[A-Z]` character, then either `$` matches or
up to `n - 1` further `[A-Z]` characters are consumed. -/
def matchAZTail : ℕ → List Char → Bool
  | 0, _ => false
  | _ + 1, [] => false
  | n + 1, c :: rest => isUpperAZ c && (dollarEnd rest || matchAZTail n rest)

/-- Truthiness of `re.match(r'^[A-Z]{1,5}$', s)` under Python semantics. -/
def pyMatchTicker (s : List Char) : Bool := matchAZTail 5 s

/-- Model of `validate_ticker` (`validation.py`, via `TickerRequest.validate_ticker`):
rejects the empty string, then accepts iff `re.match(r'^[A-Z]{1,5}$',
v.upper())` is truthy, returning `v.upper()`.  `none` models the raised
`ValueError`. -/
def validate_ticker (v : String) : Option String :=
  if v.data = [] then none
  else
    let u := pyUpper v
    if pyMatchTicker u.data then some u else none

/-- Element-wise validation loop of `QuoteRequest.validate_tickers`. -/
def mapValidate : List String → Option (List String)
  | [] => some []
  | t :: ts =>
      match validate_ticker t, mapValidate ts with
      | some v, some vs => some (v :: vs)
      | _, _ => none

/-- Model of `validate_tickers` (`validation.py`, via `QuoteRequest`): the pydantic
field bounds `min_length=1, max_length=50` on the list, then element-wise
`validate_ticker`. -/
def validate_tickers (tickers : List String) : Option (List String) :=
  if tickers.length < 1 ∨ tickers.length > 50 then none
  else mapValidate tickers

/-- A full anchored match of `[A-Z]{1,5}` in the mathematical sense used by
the specification's wording: 1 to 5 characters, all in `[A-Z]`, nothing
else.  (Written from the spec sentence, for comparison with the source's
Python-semantics matcher.) -/
def specTickerMatch (u : List Char) : Bool :=
  decide (1 ≤ u.length) && decide (u.length ≤ 5) && u.all isUpperAZ

/-- The acceptance condition actually implemented, in closed form: 1 to 5
uppercase letters, optionally followed by one trailing newline (Python's
`$` also matches just before a final newline). -/
def tickerAcceptPy (u : List Char) : Bool :=
  specTickerMatch u || ((u.getLast? == some '\n') && specTickerMatch u.dropLast)

lemma matchAZTail_iff (n : ℕ) : ∀ u : List Char,
    matchAZTail n u = true ↔
      ((1 ≤ u.length ∧ u.length ≤ n ∧ u.all isUpperAZ = true) ∨
       (u.getLast? = some '\n' ∧ 1 ≤ u.dropLast.length ∧ u.dropLast.length ≤ n ∧
        u.dropLast.all isUpperAZ = true)) := by
  induction n with
  | zero =>
    intro u
    constructor
    · intro h
      simp [matchAZTail] at h
    · rintro (⟨h1, h2, -⟩ | ⟨-, h1, h2, -⟩) <;> omega
  | succ n ih =>
    intro u
    match u with
    | [] => simp [matchAZTail]
    | [c] => simp [matchAZTail, dollarEnd]
    | c :: d :: rest =>
      have ihr := ih (d :: rest)
      simp only [matchAZTail, Bool.and_eq_true, Bool.or_eq_true, dollarEnd,
        decide_eq_true_eq, List.getLast?_cons_cons, List.dropLast_cons₂] at ihr ⊢
      constructor
      · rintro ⟨hc, (h | h) | h⟩
        · exact absurd h (by simp)
        · -- the tail is exactly "\n": trailing-newline acceptance of "c\n"
          obtain ⟨rfl, rfl⟩ : d = '\n' ∧ rest = [] := by
            constructor <;> [exact (List.cons.injEq ..).mp h |>.1;
              exact (List.cons.injEq ..).mp h |>.2]
          right
          refine ⟨rfl, ?_⟩
          simp [hc]
        · rcases ihr.mp h with ⟨h1, h2, h3⟩ | ⟨h1, h2, h3, h4⟩
          · left
            refine ⟨?_, ?_, ?_⟩ <;> simp_all
          · right
            refine ⟨h1, ?_, ?_, ?_⟩ <;> simp_all
      · rintro (⟨-, h2, h3⟩ | ⟨h1, -, h3, h4⟩)
        · -- a full `[A-Z]{1,n+1}` match of the whole string
          simp only [List.all_cons, Bool.and_eq_true] at h3
          refine ⟨h3.1, Or.inr (ihr.mpr (Or.inl ⟨?_, ?_, ?_⟩))⟩ <;>
            simp_all
        · -- trailing-newline acceptance
          simp only [List.all_cons, Bool.and_eq_true] at h4
          refine ⟨h4.1, ?_⟩
          rcases List.eq_nil_or_concat rest with rfl | ⟨rs, r, rfl⟩
          · -- tail is a single character, forced to be the newline
            left
            right
            simp only [List.getLast?_singleton, Option.some.injEq] at h1
            simp [h1]
          · right
            apply ihr.mpr
            right
            refine ⟨h1, ?_, ?_, h4.2⟩ <;> simp_all

/-- The Python matcher accepts exactly: 1-5 uppercase letters, optionally
followed by one trailing newline. -/
lemma pyMatchTicker_eq_accept (u : List Char) :
    pyMatchTicker u = tickerAcceptPy u := by
  rw [Bool.eq_iff_iff, pyMatchTicker, matchAZTail_iff 5 u]
  simp only [tickerAcceptPy, specTickerMatch, Bool.or_eq_true,
    Bool.and_eq_true, decide_eq_true_eq, beq_iff_eq]
  tauto

lemma validate_ticker_eq (s : String) :
    validate_ticker s =
      (if tickerAcceptPy (pyUpper s).data then some (pyUpper s) else none) := by
  unfold validate_ticker
  rcases hd : s.data with _ | ⟨c, cs⟩
  · have hu : (pyUpper s).data = [] := by simp [pyUpper, hd]
    simp [hu, tickerAcceptPy, specTickerMatch]
  · simp [hd, pyMatchTicker_eq_accept]

/-- On success, `validate_ticker` returns the uppercased input. -/
lemma validate_ticker_some {s v : String} (h : validate_ticker s = some v) :
    v = pyUpper s := by
  unfold validate_ticker at h
  split at h
  · exact absurd h (by simp)
  · simp only at h
    split at h
    · exact (Option.some.injEq ..).mp h |>.symm
    · exact absurd h (by simp)

lemma mapValidate_eq_none : ∀ l : List String,
    (mapValidate l = none ↔ ∃ t ∈ l, validate_ticker t = none) := by
  intro l
  induction l with
  | nil => simp [mapValidate]
  | cons t ts ih =>
    simp only [mapValidate]
    rcases h1 : validate_ticker t with _ | v <;>
      rcases h2 : mapValidate ts with _ | vs <;>
      simp_all

lemma mapValidate_some : ∀ (l : List String) (ns : List String),
    mapValidate l = some ns → ns = l.map pyUpper := by
  intro l
  induction l with
  | nil => simp [mapValidate]
  | cons t ts ih =>
    intro ns h
    simp only [mapValidate] at h
    rcases h1 : validate_ticker t with _ | v <;> rw [h1] at h
    · exact absurd h (by simp)
    · rcases h2 : mapValidate ts with _ | vs <;> rw [h2] at h
      · exact absurd h (by simp)
      · obtain rfl : v :: vs = ns := (Option.some.injEq ..).mp h
        rw [List.map_cons, ← validate_ticker_some h1, ← ih vs h2]

/-! ## Rate limiter (`rate_limiter.py`) -/

/-- Token-bucket state (`TokenBucket.__init__`): capacity `rate`, window
`per` seconds, current `allowance`, time of the last check. -/
structure TokenBucket where
  rate : ℚ
  per : ℚ
  allowance : ℚ
  last_check : ℚ
deriving DecidableEq, Repr

/-- Constructor `TokenBucket(rate, per)`: initial allowance equals the full rate;
`created` is the construction time (`time.time()`). -/
def TokenBucket.init (rate : ℕ) (per : ℚ) (created : ℚ) : TokenBucket :=
  ⟨rate, per, rate, created⟩

/-- Model of `TokenBucket.consume(tokens)` at current time `now`: refill the
allowance by `elapsed * rate / per`, cap it at `rate`, then consume
`tokens` iff the refilled allowance suffices.  Returns the success flag and
the updated bucket (the Python method mutates `self` under `self.lock`). -/
def TokenBucket.consume (b : TokenBucket) (now : ℚ) (tokens : ℚ) :
    Bool × TokenBucket :=
  let time_passed := now - b.last_check
  let allowance1 := b.allowance + time_passed * (b.rate / b.per)
  let allowance2 := if allowance1 > b.rate then b.rate else allowance1
  if allowance2 ≥ tokens then
    (true, { b with last_check := now, allowance := allowance2 - tokens })
  else
    (false, { b with last_check := now, allowance := allowance2 })

/-- Iterated bucket use: `n` successive `consume(1)` calls at the instant `now`;
returns (number of successes, number of failures, final bucket). -/
def consumeRepeat (b : TokenBucket) (now : ℚ) : ℕ → ℕ × ℕ × TokenBucket
  | 0 => (0, 0, b)
  | k + 1 =>
      let r := b.consume now 1
      let rec' := consumeRepeat r.2 now k
      (rec'.1 + (if r.1 then 1 else 0), rec'.2.1 + (if r.1 then 0 else 1),
       rec'.2.2)

/-- Closed form of `consume`: the refilled-and-clamped allowance is
`min rate (allowance + elapsed * rate / per)`; consumption succeeds iff it
is at least `tokens`, in which case `tokens` is subtracted, else the
(refilled) allowance is kept. -/
lemma TokenBucket.consume_eval (b : TokenBucket) (now tokens : ℚ) :
    b.consume now tokens =
      (decide (tokens ≤
          min b.rate (b.allowance + (now - b.last_check) * (b.rate / b.per))),
       ⟨b.rate, b.per,
        (if tokens ≤
            min b.rate (b.allowance + (now - b.last_check) * (b.rate / b.per))
         then
           min b.rate (b.allowance + (now - b.last_check) * (b.rate / b.per))
             - tokens
         else
           min b.rate (b.allowance + (now - b.last_check) * (b.rate / b.per))),
        now⟩) := by
  have hclamp :
      (if b.allowance + (now - b.last_check) * (b.rate / b.per) > b.rate
       then b.rate
       else b.allowance + (now - b.last_check) * (b.rate / b.per)) =
        min b.rate (b.allowance + (now - b.last_check) * (b.rate / b.per)) := by
    rw [min_def]
    split_ifs <;> linarith
  simp only [TokenBucket.consume, hclamp, ge_iff_le]
  by_cases h : tokens ≤
      min b.rate (b.allowance + (now - b.last_check) * (b.rate / b.per)) <;>
    simp [h]

/-- With no elapsed time, a bucket holding an integral allowance `m ≤ rate`
serves exactly `min m k` of `k` unit requests. -/
lemma consumeRepeat_count (now : ℚ) : ∀ (k : ℕ) (b : TokenBucket) (m : ℕ),
    b.allowance = (m : ℚ) → (m : ℚ) ≤ b.rate → b.last_check = now →
    (consumeRepeat b now k).1 = min m k ∧
      (consumeRepeat b now k).2.1 = k - min m k := by
  intro k
  induction k with
  | zero => intro b m _ _ _; simp [consumeRepeat]
  | succ k ih =>
    intro b m hm hle hlc
    have hrefill : b.allowance + (now - b.last_check) * (b.rate / b.per)
        = (m : ℚ) := by
      rw [hlc, hm, sub_self, zero_mul, add_zero]
    have hmin : min b.rate (b.allowance + (now - b.last_check) *
        (b.rate / b.per)) = (m : ℚ) := by
      rw [hrefill, min_eq_right hle]
    by_cases h1 : (1 : ℚ) ≤ (m : ℚ)
    · -- a token is available: this call succeeds
      have hm1 : 1 ≤ m := by exact_mod_cast h1
      have hstep := ih ⟨b.rate, b.per, (m : ℚ) - 1, now⟩ (m - 1)
        (by rw [Nat.cast_sub hm1]; norm_num)
        (by rw [Nat.cast_sub hm1]; push_cast; linarith) rfl
      simp only [consumeRepeat, TokenBucket.consume_eval, hmin, h1,
        if_pos, decide_eq_true_eq] at *
      refine ⟨?_, ?_⟩ <;> simp [hstep.1, hstep.2] <;> omega
    · -- the bucket is empty: this call fails
      have hm0 : m = 0 := by
        by_contra hne
        exact h1 (by exact_mod_cast Nat.one_le_iff_ne_zero.mpr hne)
      subst hm0
      have hstep := ih ⟨b.rate, b.per, (0 : ℚ), now⟩ 0 (by norm_num)
        (by simpa using hle) rfl
      simp only [consumeRepeat, TokenBucket.consume_eval, hmin, h1,
        if_neg, decide_eq_true_eq] at *
      refine ⟨?_, ?_⟩ <;> simp [hstep.1, hstep.2, h1]

/-- Multi-provider rate limiter (`RateLimiter`): a named registry of
independent token buckets. -/
structure RateLimiter where
  limiters : List (String × TokenBucket)
deriving DecidableEq, Repr

/-- Model of `RateLimiter.register_provider(name, rate, per)` at time `now`. -/
def RateLimiter.register_provider (rl : RateLimiter) (name : String)
    (rate : ℕ) (per : ℚ) (now : ℚ) : RateLimiter :=
  ⟨dinsert rl.limiters name (TokenBucket.init rate per now)⟩

/-- Model of `RateLimiter.check_limit(provider, tokens)` at time `now`: an
unregistered provider logs a warning and passes; a registered provider
consumes from its bucket, raising
`RateLimitExceededError` carrying `limit = bucket.rate` and the window
string built from `bucket.per` when consumption fails.  The raised error (if any) is returned alongside the
updated registry; the `window` string renders the rational `per` the way
Python formats the float (`per = 60.0` renders as `"60.0s"`). -/
def RateLimiter.check_limit (rl : RateLimiter) (provider : String)
    (now : ℚ) (tokens : ℚ) : Option AppError × RateLimiter :=
  match dlookup rl.limiters provider with
  | none => (none, rl)
  | some limiter =>
      let r := limiter.consume now tokens
      let rl' : RateLimiter := ⟨dinsert rl.limiters provider r.2⟩
      if r.1 then (none, rl')
      else (some (AppError.rateLimitExceeded limiter.rate limiter.per), rl')

/-- Iterated checks: `n` successive `check_limit` calls at the same instant, collecting the
outcome of each call in order. -/
def checkSeq (provider : String) (now : ℚ) (tokens : ℚ) :
    RateLimiter → ℕ → List (Option AppError)
  | _, 0 => []
  | rl, k + 1 =>
      let r := rl.check_limit provider now tokens
      r.1 :: checkSeq provider now tokens r.2 k

/-! ## Data model (`providers/base.py`) -/

/-- Standardized quote record (`providers/base.py` `Quote`); optional
fields default to `None`. -/
structure Quote where
  ticker : String
  price : ℚ
  timestamp : ℚ
  volume : Option ℚ := none
  bid : Option ℚ := none
  ask : Option ℚ := none
  open_ : Option ℚ := none
  high : Option ℚ := none
  low : Option ℚ := none
  previous_close : Option ℚ := none
  change : Option ℚ := none
  change_percent : Option ℚ := none
  provider : Option String := none
deriving DecidableEq, Repr

/-- Standardized news article record (`providers/base.py` `NewsArticle`). -/
structure NewsArticle where
  title : String
  description : Option String
  url : String
  published_at : ℚ
  source : Option String := none
  author : Option String := none
  tickers : Option (List String) := none
  provider : Option String := none
deriving DecidableEq, Repr

/-! ## YFinance provider (`providers/yfinance_provider.py`) -/

/-- The fields of the loosely-typed `stock.info` dict that
`YFinanceProvider.get_quote` reads; `none` models an absent key. -/
structure YInfo where
  currentPrice : Option ℚ := none
  regularMarketPrice : Option ℚ := none
  previousClose : Option ℚ := none
  volume : Option ℚ := none
  bid : Option ℚ := none
  ask : Option ℚ := none
  open_ : Option ℚ := none
  regularMarketOpen : Option ℚ := none
  dayHigh : Option ℚ := none
  regularMarketDayHigh : Option ℚ := none
  dayLow : Option ℚ := none
  regularMarketDayLow : Option ℚ := none
deriving DecidableEq, Repr

/-- Python `a or b` on two optional floats: `a` wins unless it is absent or
zero (floats are falsy at `0.0`). -/
def pyOrQ (a b : Option ℚ) : Option ℚ :=
  match a with
  | some x => if x = 0 then b else some x
  | none => b

/-- Model of the expression reading the current price: the `currentPrice` entry
or, when that is absent or zero, the `regularMarketPrice` entry with default 0. -/
def currentPriceOf (info : YInfo) : ℚ :=
  match info.currentPrice with
  | some x => if x = 0 then info.regularMarketPrice.getD 0 else x
  | none => info.regularMarketPrice.getD 0

/-- Construction of the `Quote` returned by `YFinanceProvider.get_quote`
from the `stock.info` fields (lines 134-153 of the source). -/
def yfBuildQuote (t : String) (now : ℚ) (info : YInfo) : Quote :=
  let current_price := currentPriceOf info
  let previous_close := info.previousClose.getD current_price
  let change := current_price - previous_close
  let change_percent := if previous_close ≠ 0 then change / previous_close * 100 else 0
  { ticker := t, price := current_price, timestamp := now,
    volume := info.volume, bid := info.bid, ask := info.ask,
    open_ := pyOrQ info.open_ info.regularMarketOpen,
    high := pyOrQ info.dayHigh info.regularMarketDayHigh,
    low := pyOrQ info.dayLow info.regularMarketDayLow,
    previous_close := some previous_close, change := some change,
    change_percent := some change_percent, provider := some "yfinance" }

/-- Model of `YFinanceProvider.get_quote(ticker)`.  `fetchInfo` is the upstream
transport (`yf.Ticker(t)` followed by `.info`, counted as one upstream
request); its `Except.error` models any exception from those calls.
Returns (outcome, rate limiter after the call, number of upstream
requests issued).  Control flow from the source: validation failure raises
`InvalidTickerError(ticker)` before anything else; the
`rate_limiter.check_limit("yfinance")` call is wrapped in a catch-all
`except` that only logs; missing price keys raise `DataNotFoundError`;
any other transport failure is wrapped in `ProviderError`. -/
def yfGetQuote (ticker : String) (rl : RateLimiter) (now : ℚ)
    (fetchInfo : String → Except Unit YInfo) :
    Except AppError Quote × RateLimiter × ℕ :=
  match validate_ticker ticker with
  | none => (Except.error (AppError.invalidTicker ticker), rl, 0)
  | some t =>
      let rl1 := (rl.check_limit "yfinance" now 1).2
      match fetchInfo t with
      | Except.error _ => (Except.error AppError.providerError, rl1, 1)
      | Except.ok info =>
          if info.currentPrice = none ∧ info.regularMarketPrice = none then
            (Except.error AppError.dataNotFound, rl1, 1)
          else
            (Except.ok (yfBuildQuote t now info), rl1, 1)

/-- The per-ticker loop of `YFinanceProvider.get_quotes`: accumulate
successes into the result dict, drop per-ticker failures. -/
def yfGetQuotesLoop (now : ℚ) (fetchInfo : String → Except Unit YInfo) :
    List String → RateLimiter → List (String × Quote) →
    List (String × Quote) × RateLimiter
  | [], rl, acc => (acc, rl)
  | t :: ts, rl, acc =>
      let r := yfGetQuote t rl now fetchInfo
      match r.1 with
      | Except.ok q => yfGetQuotesLoop now fetchInfo ts r.2.1 (dinsert acc t q)
      | Except.error _ => yfGetQuotesLoop now fetchInfo ts r.2.1 acc

/-- Model of `YFinanceProvider.get_quotes(tickers)`: all-or-nothing validation of
the list, then best-effort per-ticker fetching. -/
def yfGetQuotes (tickers : List String) (rl : RateLimiter) (now : ℚ)
    (fetchInfo : String → Except Unit YInfo) :
    Except AppError (List (String × Quote)) × RateLimiter :=
  match validate_tickers tickers with
  | none => (Except.error AppError.valueError, rl)
  | some norm =>
      let r := yfGetQuotesLoop now fetchInfo norm rl []
      (Except.ok r.1, r.2)

/-- A raw news item from `stock.news`; `none` models an absent key. -/
structure RawNews where
  title : Option String := none
  summary : Option String := none
  link : Option String := none
  publisher : Option String := none
  providerPublishTime : Option ℚ := none
deriving DecidableEq, Repr

/-- Parsing of one news item by `YFinanceProvider.get_news`. -/
def yfParseArticle (t : String) (item : RawNews) : NewsArticle :=
  { title := item.title.getD "", description := item.summary,
    url := item.link.getD "", published_at := item.providerPublishTime.getD 0,
    source := item.publisher, tickers := some [t],
    provider := some "yfinance" }

/-- Model of `YFinanceProvider.get_news(ticker, limit)`.  A falsy ticker (absent or
empty) short-circuits to `[]`; validation failure propagates the
`ValueError`; a transport failure becomes `ProviderError`; otherwise the
first `limit` items are parsed. -/
def yfGetNews (ticker : Option String) (limit : ℕ)
    (fetchNews : String → Except Unit (List RawNews)) :
    Except AppError (List NewsArticle) :=
  match ticker with
  | none => Except.ok []
  | some t0 =>
      if t0.data = [] then Except.ok []
      else
        match validate_ticker t0 with
        | none => Except.error AppError.valueError
        | some t =>
            match fetchNews t with
            | Except.error _ => Except.error AppError.providerError
            | Except.ok news =>
                if news = [] then Except.ok []
                else Except.ok ((news.take limit).map (yfParseArticle t))

/-! ## Polygon provider (`providers/polygon_provider.py`) -/

/-- A day aggregate inside a Polygon snapshot (`day` / `prevDay`). -/
structure DayAgg where
  c : Option ℚ := none
  o : Option ℚ := none
  h : Option ℚ := none
  l : Option ℚ := none
deriving DecidableEq, Repr

/-- The `lastQuote` object of a snapshot (uppercase `P` is the bid,
lowercase `p` the ask, as read by the source). -/
structure LastQuoteData where
  P : Option ℚ := none
  p : Option ℚ := none
deriving DecidableEq, Repr

/-- The `ticker` object of a Polygon snapshot response; a snapshot
response lacking this object (or falsy) is modelled as `none` at the call
site. -/
structure SnapTicker where
  day : DayAgg := {}
  prevDay : DayAgg := {}
  lastQuote : Option LastQuoteData := none
  todaysVolume : Option ℚ := none
deriving DecidableEq, Repr

/-- A last-trade response carrying a `price` key (responses without one
are modelled as `none` at the call site). -/
structure TradeData where
  price : ℚ
  size : Option ℚ := none
  timestamp : Option ℚ := none
deriving DecidableEq, Repr

/-- The `Quote` built from a usable snapshot (lines 79-104 of the source). -/
def snapQuote (ticker : String) (now : ℚ) (st : SnapTicker) : Quote :=
  let price := st.day.c.getD 0
  let prev_close := st.prevDay.c.getD price
  let change := if prev_close ≠ 0 then price - prev_close else 0
  let change_percent := if prev_close ≠ 0 then change / prev_close * 100 else 0
  { ticker := ticker, price := price, timestamp := now,
    volume := st.todaysVolume,
    bid := match st.lastQuote with | some lq => lq.P | none => none,
    ask := match st.lastQuote with | some lq => lq.p | none => none,
    open_ := st.day.o, high := st.day.h, low := st.day.l,
    previous_close := some prev_close, change := some change,
    change_percent := some change_percent, provider := some "polygon" }

/-- The `Quote` built from a usable last trade (lines 111-118). -/
def tradeQuote (ticker : String) (td : TradeData) : Quote :=
  { ticker := ticker, price := td.price,
    timestamp := td.timestamp.getD 0 / 1000000000,
    volume := td.size, provider := some "polygon" }

/-- The zero-price placeholder returned when no data is available
(lines 122-128). -/
def placeholderQuote (ticker : String) (now : ℚ) : Quote :=
  { ticker := ticker, price := 0, timestamp := now,
    provider := some "polygon" }

/-- The upstream MCP calls `PolygonProvider.get_quote` can issue. -/
inductive PolyCall where
  | snapshot
  | lastTrade
deriving DecidableEq, Repr

/-- Model of `PolygonProvider.get_quote(ticker)` (body after connection): try the
snapshot call; on any exception (`Except.error`) or unusable payload
(`none`: response falsy or lacking the `"ticker"` key) fall through to the
last-trade call; on any exception or payload without a `"price"` key fall
through to the zero-price placeholder.  Returns the quote and the ordered
list of upstream calls issued.  Note: no ticker validation and no rate
limiter consultation occurs anywhere in this method. -/
def polygonGetQuote (ticker : String) (now : ℚ)
    (snap : Except Unit (Option SnapTicker))
    (trade : Except Unit (Option TradeData)) : Quote × List PolyCall :=
  match snap with
  | Except.ok (some st) => (snapQuote ticker now st, [PolyCall.snapshot])
  | _ =>
      match trade with
      | Except.ok (some td) =>
          (tradeQuote ticker td, [PolyCall.snapshot, PolyCall.lastTrade])
      | _ => (placeholderQuote ticker now,
          [PolyCall.snapshot, PolyCall.lastTrade])

/-- Did the snapshot call yield usable data? -/
def snapUsable : Except Unit (Option SnapTicker) → Bool
  | Except.ok (some _) => true
  | _ => false

/-- Did the last-trade call yield usable data? -/
def tradeUsable : Except Unit (Option TradeData) → Bool
  | Except.ok (some _) => true
  | _ => false

/-! ## Hybrid provider and factory (`providers/factory.py`) -/

/-- Model of `HybridProvider.get_news(ticker, limit)`.  `polygonRes` is `none` when
no Polygon API key was configured (so `self._polygon` is `None`), and
otherwise carries the outcome of `self._polygon.get_news(ticker, limit)`.
On a configured primary that raises, or on an unconfigured primary, fall
back: `if ticker:` guards the YFinance call (an absent or empty ticker is
falsy and yields `[]`). -/
def hybridGetNews (polygonRes : Option (Except Unit (List NewsArticle)))
    (ticker : Option String) (limit : ℕ)
    (fetchNews : String → Except Unit (List RawNews)) :
    Except AppError (List NewsArticle) :=
  match polygonRes with
  | some (Except.ok arts) => Except.ok arts
  | some (Except.error _) =>
      match ticker with
      | some t => if t.data = [] then Except.ok []
                  else yfGetNews (some t) limit fetchNews
      | none => Except.ok []
  | none =>
      match ticker with
      | some t => if t.data = [] then Except.ok []
                  else yfGetNews (some t) limit fetchNews
      | none => Except.ok []

/-- Provider selection strategy (`ProviderStrategy`). -/
inductive ProviderStrategy where
  | polygonOnly
  | yfinanceOnly
  | auto
  | hybrid
deriving DecidableEq, Repr

/-- The constructed (not yet connected) provider instances
`ProviderFactory.create_provider` can return. -/
inductive Provider where
  | polygon (api_key : String)
  | yfinance
  | hybridOf (polygon_api_key : Option String)
deriving DecidableEq, Repr

/-- String value `strategy.value` of the Python enum. -/
def strategyValue : ProviderStrategy → String
  | ProviderStrategy.polygonOnly => "polygon"
  | ProviderStrategy.yfinanceOnly => "yfinance"
  | ProviderStrategy.auto => "auto"
  | ProviderStrategy.hybrid => "hybrid"

/-- Python string interpolation of an optional credential: `None` renders
as the four characters None. -/
def keyStr : Option String → String
  | none => "None"
  | some s => s

/-- The factory cache key: the strategy value and the rendered credential
joined by an underscore. -/
def cacheKey (strategy : ProviderStrategy) (k : Option String) : String :=
  strategyValue strategy ++ "_" ++ keyStr k

/-- Model of `ProviderFactory.create_provider(strategy, polygon_api_key)` over an
explicit instance cache: return a cached instance when present; otherwise
the polygon-only strategy without a key raises
`ValueError("Polygon API key required for polygon-only strategy")` before
constructing anything, and every other branch constructs an instance and
caches it.  No branch attempts a network connection (`connect` is a
separate, later step). -/
def create_provider (cache : List (String × Provider))
    (strategy : ProviderStrategy) (polygon_api_key : Option String) :
    Except AppError (Provider × List (String × Provider)) :=
  match dlookup cache (cacheKey strategy polygon_api_key) with
  | some p => Except.ok (p, cache)
  | none =>
      match strategy, polygon_api_key with
      | ProviderStrategy.polygonOnly, none => Except.error AppError.valueError
      | ProviderStrategy.polygonOnly, some k =>
          Except.ok (Provider.polygon k,
            dinsert cache (cacheKey strategy polygon_api_key)
              (Provider.polygon k))
      | ProviderStrategy.yfinanceOnly, _ =>
          Except.ok (Provider.yfinance,
            dinsert cache (cacheKey strategy polygon_api_key)
              Provider.yfinance)
      | ProviderStrategy.auto, some k =>
          Except.ok (Provider.hybridOf (some k),
            dinsert cache (cacheKey strategy polygon_api_key)
              (Provider.hybridOf (some k)))
      | ProviderStrategy.auto, none =>
          Except.ok (Provider.yfinance,
            dinsert cache (cacheKey strategy polygon_api_key)
              Provider.yfinance)
      | ProviderStrategy.hybrid, k =>
          Except.ok (Provider.hybridOf k,
            dinsert cache (cacheKey strategy polygon_api_key)
              (Provider.hybridOf k))

/-! ## Helper lemmas -/

lemma dlookup_dinsert {α : Type} (m : List (String × α)) (k : String)
    (v : α) (q : String) :
    dlookup (dinsert m k v) q = if q = k then some v else dlookup m q := by
  induction m with
  | nil =>
    by_cases h : q = k
    · subst h
      simp [dinsert, dlookup]
    · have h' : ¬(k = q) := fun hh => h hh.symm
      simp [dinsert, dlookup, h, h']
  | cons p rest ih =>
    obtain ⟨a, b⟩ := p
    by_cases hak : a = k
    · subst hak
      by_cases hq : q = a
      · subst hq
        simp [dinsert, dlookup]
      · have hq' : ¬(a = q) := fun hh => hq hh.symm
        simp [dinsert, dlookup, hq, hq']
    · by_cases hq : q = k
      · subst hq
        simp [dinsert, dlookup, hak, ih]
      · by_cases haq : a = q
        · subst haq
          simp [dinsert, dlookup, hak, hq, ih]
        · simp [dinsert, dlookup, hak, hq, haq, ih]

/-- The outcome and the upstream request count of
`YFinanceProvider.get_quote` do not depend on the rate-limiter state (the
`check_limit` call is wrapped in a catch-all `except`). -/
lemma yfGetQuote_rl_independent (ticker : String) (rl rl' : RateLimiter)
    (now : ℚ) (fetchInfo : String → Except Unit YInfo) :
    (yfGetQuote ticker rl now fetchInfo).1 =
        (yfGetQuote ticker rl' now fetchInfo).1 ∧
      (yfGetQuote ticker rl now fetchInfo).2.2 =
        (yfGetQuote ticker rl' now fetchInfo).2.2 := by
  unfold yfGetQuote
  rcases validate_ticker ticker with _ | t
  · exact ⟨rfl, rfl⟩
  · simp only
    rcases fetchInfo t with _ | info
    · exact ⟨rfl, rfl⟩
    · by_cases h : info.currentPrice = none ∧ info.regularMarketPrice = none <;>
        simp [h]

lemma yfGetQuotesLoop_lookup (now : ℚ)
    (fetchInfo : String → Except Unit YInfo) :
    ∀ (ts : List String) (rl : RateLimiter) (acc : List (String × Quote))
      (t : String),
      dlookup (yfGetQuotesLoop now fetchInfo ts rl acc).1 t =
        match (yfGetQuote t rl now fetchInfo).1 with
        | Except.ok q => if t ∈ ts then some q else dlookup acc t
        | Except.error _ => dlookup acc t := by
  intro ts
  induction ts with
  | nil =>
    intro rl acc t
    rcases h : (yfGetQuote t rl now fetchInfo).1 with e | q <;>
      simp [yfGetQuotesLoop, h]
  | cons t' rest ih =>
    intro rl acc t
    have hind := yfGetQuote_rl_independent t rl
      (yfGetQuote t' rl now fetchInfo).2.1 now fetchInfo
    simp only [yfGetQuotesLoop]
    rcases h' : (yfGetQuote t' rl now fetchInfo).1 with e' | q'
    · -- the head ticker failed and is skipped
      rw [ih _ acc t, ← hind.1]
      rcases h : (yfGetQuote t rl now fetchInfo).1 with e | q
      · rfl
      · by_cases hmem : t ∈ rest
        · simp [hmem, List.mem_cons]
        · have hne : ¬(t = t') := by
            rintro rfl
            rw [h] at h'
            exact absurd h' (by simp)
          simp [hmem, hne, List.mem_cons]
    · -- the head ticker succeeded and was inserted
      rw [ih _ (dinsert acc t' q') t, ← hind.1, dlookup_dinsert]
      rcases h : (yfGetQuote t rl now fetchInfo).1 with e | q
      · have hne : ¬(t = t') := by
          rintro rfl
          rw [h] at h'
          exact absurd h' (by simp)
        simp [hne]
      · by_cases heq : t = t'
        · subst heq
          rw [h] at h'
          obtain rfl : q = q' := (Except.ok.injEq ..).mp h'
          simp [List.mem_cons]
        · simp [heq, List.mem_cons]

/-! ## Claim theorems -/

/-- C1: `TokenBucket.consume(n)` first refills the allowance by
`elapsed * rate/window` since the last check, clamping it to at most
`rate`, then subtracts `n` and succeeds iff the refilled allowance is at
least `n`, otherwise fails without reducing the allowance; consequently a
bucket with rate `R` facing `2R` `consume(1)` calls with no elapsed time
grants exactly `R` and refuses exactly `R`. -/
theorem c1_token_bucket_consume :
    (∀ (b : TokenBucket) (now n : ℚ),
      b.consume now n =
        (decide (n ≤ min b.rate
            (b.allowance + (now - b.last_check) * (b.rate / b.per))),
         ⟨b.rate, b.per,
          (if n ≤ min b.rate
              (b.allowance + (now - b.last_check) * (b.rate / b.per))
           then min b.rate
              (b.allowance + (now - b.last_check) * (b.rate / b.per)) - n
           else min b.rate
              (b.allowance + (now - b.last_check) * (b.rate / b.per))),
          now⟩)) ∧
    (∀ (R : ℕ) (per t0 : ℚ),
      (consumeRepeat (TokenBucket.init R per t0) t0 (2 * R)).1 = R ∧
        (consumeRepeat (TokenBucket.init R per t0) t0 (2 * R)).2.1 = R) := by
  refine ⟨TokenBucket.consume_eval, ?_⟩
  intro R per t0
  have h := consumeRepeat_count t0 (2 * R) (TokenBucket.init R per t0) R
    rfl (le_refl _) rfl
  refine ⟨?_, ?_⟩
  · rw [h.1]
    omega
  · rw [h.2]
    omega

/-- C2 counterexample: the claim says `validate_ticker` fails for every
string whose uppercase form does not fully match `^[A-Z]{1,5}$`, in
particular for any string containing whitespace; but Python's `$` also
matches just before a trailing newline, so `"ABC\n"` (which contains the
whitespace character `'\n'` and does not fully match the pattern) is
accepted and returned as `"ABC\n"`. -/
theorem c2_trailing_newline_cex :
    validate_ticker "ABC\n" = some "ABC\n" ∧
      specTickerMatch (pyUpper "ABC\n").data = false ∧
      '\n' ∈ "ABC\n".data := by
  refine ⟨by decide, by decide, by decide⟩

/-- C2 (amended): `validate_ticker` succeeds exactly when the input, after
uppercasing, consists of 1 to 5 uppercase letters optionally followed by a
single trailing newline (Python `re` semantics of `$`), returning the
uppercase form (trailing newline included); it fails for every other
string. -/
theorem c2_validate_ticker_amended (s : String) :
    validate_ticker s =
      (if tickerAcceptPy (pyUpper s).data then some (pyUpper s) else none) :=
  validate_ticker_eq s

/-- C6: `validate_tickers` is all-or-nothing and order-preserving: it
fails iff the list is empty, longer than 50, or contains an element
rejected by `validate_ticker`; on success it returns the normalized
(uppercased) tickers in input order. -/
theorem c6_validate_tickers (l : List String) :
    (validate_tickers l = none ↔
      (l = [] ∨ 50 < l.length ∨ ∃ t ∈ l, validate_ticker t = none)) ∧
    (∀ ns, validate_tickers l = some ns → ns = l.map pyUpper) := by
  constructor
  · constructor
    · intro hn
      unfold validate_tickers at hn
      split at hn
      · rename_i hcond
        rcases hcond with h | h
        · exact Or.inl (List.length_eq_zero.mp (by omega))
        · exact Or.inr (Or.inl h)
      · exact Or.inr (Or.inr ((mapValidate_eq_none l).mp hn))
    · intro hcase
      unfold validate_tickers
      by_cases hcond : l.length < 1 ∨ l.length > 50
      · rw [if_pos hcond]
      · rw [if_neg hcond]
        apply (mapValidate_eq_none l).mpr
        rcases hcase with rfl | h50 | hex
        · exact absurd (Or.inl (by simp)) hcond
        · exact absurd (Or.inr h50) hcond
        · exact hex
  · intro ns hs
    unfold validate_tickers at hs
    split at hs
    · exact absurd hs (by simp)
    · exact mapValidate_some l ns hs

/-- C6 witness: a batch with one invalid element fails entirely; a valid
batch is returned uppercased in order. -/
theorem c6_validate_tickers_witness :
    validate_tickers ["ab", ""] = none ∧ ["AB"] = List.map pyUpper ["ab"] :=
  ⟨(c6_validate_tickers ["ab", ""]).1.mpr
      (Or.inr (Or.inr ⟨"", by decide, by decide⟩)),
   (c6_validate_tickers ["ab"]).2 ["AB"] (by decide)⟩

/-- C7: `check_limit` passes for unregistered names; for a registered name
it raises `RateLimitExceededError` carrying the bucket's configured limit
and window exactly when `consume` fails; with a bucket registered at
`rate=3, per=60.0`, three immediate calls pass and the fourth raises
`RateLimitExceededError(limit=3, window="60.0s")` (the window string
renders `per = 60.0`). -/
theorem c7_check_limit :
    (∀ (rl : RateLimiter) (name : String) (now tokens : ℚ),
      dlookup rl.limiters name = none →
        rl.check_limit name now tokens = (none, rl)) ∧
    (∀ (rl : RateLimiter) (name : String) (b : TokenBucket) (now tokens : ℚ),
      dlookup rl.limiters name = some b →
        rl.check_limit name now tokens =
          (if (b.consume now tokens).1 then none
           else some (AppError.rateLimitExceeded b.rate b.per),
           ⟨dinsert rl.limiters name (b.consume now tokens).2⟩)) ∧
    checkSeq "polygon" 0 1
        (RateLimiter.register_provider ⟨[]⟩ "polygon" 3 60 0) 4 =
      [none, none, none, some (AppError.rateLimitExceeded 3 60)] := by
  refine ⟨?_, ?_, ?_⟩
  · intro rl name now tokens h
    unfold RateLimiter.check_limit
    rw [h]
  · intro rl name b now tokens h
    unfold RateLimiter.check_limit
    rw [h]
    by_cases hc : (b.consume now tokens).1 <;> simp [hc]
  · norm_num [checkSeq, RateLimiter.check_limit, RateLimiter.register_provider,
      TokenBucket.init, TokenBucket.consume, dinsert, dlookup]

/-- C7 witness: an unregistered provider passes the check unchanged. -/
theorem c7_check_limit_witness :
    RateLimiter.check_limit ⟨[]⟩ "unknown" 0 1 = (none, ⟨[]⟩) :=
  c7_check_limit.1 ⟨[]⟩ "unknown" 0 1 rfl

/-- Concrete `stock.info` stub for the batch-quote scenario ("AAPL"). -/
def infoAAPL : YInfo := { currentPrice := some 185, previousClose := some 184 }

/-- Concrete `stock.info` stub for the batch-quote scenario ("MSFT"). -/
def infoMSFT : YInfo := { currentPrice := some 410, previousClose := some 400 }

/-- A transport stub whose upstream errors for every ticker except "AAPL"
and "MSFT". -/
def fetchStub : String → Except Unit YInfo := fun t =>
  if t = "AAPL" then Except.ok infoAAPL
  else if t = "MSFT" then Except.ok infoMSFT
  else Except.error ()

/-- Is this outcome a raised `RateLimitExceededError`? -/
def isRateLimitError : Except AppError Quote → Bool
  | Except.error (AppError.rateLimitExceeded _ _) => true
  | _ => false

/-- C3 counterexample: the claim says both providers validate and
rate-limit before any upstream request, so `get_quote("TOOLONG")` raises
`InvalidTickerError` with zero network calls; but `PolygonProvider.get_quote`
performs no validation and no rate-limiter check: on the invalid ticker
"TOOLONG" it issues the snapshot and last-trade upstream calls and returns
the placeholder quote instead of raising. -/
theorem c3_polygon_no_validation_cex :
    validate_ticker "TOOLONG" = none ∧
      (polygonGetQuote "TOOLONG" 0 (Except.error ()) (Except.error ())).2 =
        [PolyCall.snapshot, PolyCall.lastTrade] ∧
      (polygonGetQuote "TOOLONG" 0 (Except.error ()) (Except.error ())).1 =
        placeholderQuote "TOOLONG" 0 :=
  ⟨by decide, rfl, rfl⟩

/-- C3 (amended): only the free YFinance provider validates the ticker and
consults its registered rate limiter before issuing an upstream request —
an invalid ticker raises `InvalidTickerError` with zero upstream calls,
and on a valid ticker the returned limiter state is exactly the state
after the `check_limit("yfinance")` consultation.  The Polygon provider's
`get_quote` always issues the snapshot call first, with no validation and
no rate-limiter check. -/
theorem c3_validation_amended :
    (∀ (t : String) (rl : RateLimiter) (now : ℚ)
       (f : String → Except Unit YInfo),
      validate_ticker t = none →
        yfGetQuote t rl now f =
          (Except.error (AppError.invalidTicker t), rl, 0)) ∧
    (∀ (t : String) (rl : RateLimiter) (now : ℚ)
       (f : String → Except Unit YInfo) (v : String),
      validate_ticker t = some v →
        (yfGetQuote t rl now f).2.1 = (rl.check_limit "yfinance" now 1).2) ∧
    (∀ (t : String) (now : ℚ) (snap : Except Unit (Option SnapTicker))
       (trade : Except Unit (Option TradeData)),
      (polygonGetQuote t now snap trade).2.head? = some PolyCall.snapshot) := by
  refine ⟨?_, ?_, ?_⟩
  · intro t rl now f h
    unfold yfGetQuote
    rw [h]
  · intro t rl now f v h
    unfold yfGetQuote
    rw [h]
    simp only
    rcases f v with _ | info
    · rfl
    · by_cases hh : info.currentPrice = none ∧ info.regularMarketPrice = none <;>
        simp [hh]
  · intro t now snap trade
    rcases snap with e | os
    · rcases trade with e' | ot
      · rfl
      · rcases ot with _ | td <;> rfl
    · rcases os with _ | st
      · rcases trade with e' | ot
        · rfl
        · rcases ot with _ | td <;> rfl
      · rfl

/-- C3 witness: the free provider rejects "TOOLONG" before any upstream
request. -/
theorem c3_validation_witness :
    yfGetQuote "TOOLONG" ⟨[]⟩ 0 fetchStub =
      (Except.error (AppError.invalidTicker "TOOLONG"), ⟨[]⟩, 0) :=
  c3_validation_amended.1 "TOOLONG" ⟨[]⟩ 0 fetchStub (by decide)

/-- C4: with a configured Polygon provider whose `get_news` raises,
`HybridProvider.get_news` returns exactly the free provider's result;
with no Polygon provider configured the free provider is used outright;
and every article the free provider returns is tagged
`provider="yfinance"`. -/
theorem c4_hybrid_news_fallback :
    (∀ (e : Unit) (ticker : Option String) (limit : ℕ)
       (f : String → Except Unit (List RawNews)),
      hybridGetNews (some (Except.error e)) ticker limit f =
        yfGetNews ticker limit f) ∧
    (∀ (ticker : Option String) (limit : ℕ)
       (f : String → Except Unit (List RawNews)),
      hybridGetNews none ticker limit f = yfGetNews ticker limit f) ∧
    (∀ (ticker : Option String) (limit : ℕ)
       (f : String → Except Unit (List RawNews)) (arts : List NewsArticle),
      yfGetNews ticker limit f = Except.ok arts →
        ∀ a ∈ arts, a.provider = some "yfinance") := by
  have hfall : ∀ (ticker : Option String) (limit : ℕ)
      (f : String → Except Unit (List RawNews)),
      (match ticker with
       | some t => if t.data = [] then Except.ok []
                   else yfGetNews (some t) limit f
       | none => (Except.ok [] : Except AppError (List NewsArticle))) =
        yfGetNews ticker limit f := by
    intro ticker limit f
    rcases ticker with _ | t
    · rfl
    · by_cases h : t.data = [] <;> simp [yfGetNews, h]
  refine ⟨?_, ?_, ?_⟩
  · intro e ticker limit f
    exact hfall ticker limit f
  · intro ticker limit f
    exact hfall ticker limit f
  · intro ticker limit f arts h a ha
    rcases ticker with _ | t
    · simp only [yfGetNews] at h
      obtain rfl : ([] : List NewsArticle) = arts := (Except.ok.injEq ..).mp h
      exact absurd ha (by simp)
    · simp only [yfGetNews] at h
      split at h
      · obtain rfl : ([] : List NewsArticle) = arts := (Except.ok.injEq ..).mp h
        exact absurd ha (by simp)
      · rcases hv : validate_ticker t with _ | tv <;> rw [hv] at h <;>
          simp only [] at h
        · exact absurd h (by simp)
        · rcases hf : f tv with e' | news <;> rw [hf] at h <;>
            simp only [] at h
          · exact absurd h (by simp)
          · split at h
            · obtain rfl : ([] : List NewsArticle) = arts :=
                (Except.ok.injEq ..).mp h
              exact absurd ha (by simp)
            · obtain rfl : (news.take limit).map (yfParseArticle tv) = arts :=
                (Except.ok.injEq ..).mp h
              obtain ⟨item, -, rfl⟩ := List.mem_map.mp ha
              rfl

/-- A concrete raw news item for the fallback scenario. -/
def rawStub : RawNews :=
  { title := some "T", link := some "example", providerPublishTime := some 5 }

/-- A news transport stub returning one raw item for every ticker. -/
def newsFetchStub : String → Except Unit (List RawNews) :=
  fun _ => Except.ok [rawStub]

/-- C4 witness: the article produced by the free provider in the fallback
is tagged with the free provider's identifier. -/
theorem c4_hybrid_news_witness :
    (yfParseArticle "AAPL" rawStub).provider = some "yfinance" :=
  c4_hybrid_news_fallback.2.2 (some "AAPL") 10 newsFetchStub
    [yfParseArticle "AAPL" rawStub] (by rfl) (yfParseArticle "AAPL" rawStub)
    (by simp)

/-- C5: for every ticker list that passes batch validation, `get_quotes`
is best-effort with partial-success semantics — the returned map contains
exactly the validated tickers whose individual fetch succeeds, with their
quotes, and omits the ones whose fetch raises, without the batch raising;
in particular `get_quotes(["AAPL","FAIL","MSFT"])` against an upstream
that errors only for "FAIL" returns exactly the two entries "AAPL" and
"MSFT". -/
theorem c5_get_quotes_best_effort :
    (∀ (tickers : List String) (rl : RateLimiter) (now : ℚ)
       (f : String → Except Unit YInfo) (norm : List String),
      validate_tickers tickers = some norm →
        ∃ m rl', yfGetQuotes tickers rl now f = (Except.ok m, rl') ∧
          ∀ t q, dlookup m t = some q ↔
            (t ∈ norm ∧ (yfGetQuote t rl now f).1 = Except.ok q)) ∧
    (yfGetQuotes ["AAPL", "FAIL", "MSFT"] ⟨[]⟩ 0 fetchStub).1 =
      Except.ok [("AAPL", yfBuildQuote "AAPL" 0 infoAAPL),
                 ("MSFT", yfBuildQuote "MSFT" 0 infoMSFT)] := by
  constructor
  · intro tickers rl now f norm hv
    refine ⟨(yfGetQuotesLoop now f norm rl []).1,
      (yfGetQuotesLoop now f norm rl []).2, ?_, ?_⟩
    · unfold yfGetQuotes
      rw [hv]
    · intro t q
      rw [yfGetQuotesLoop_lookup now f norm rl [] t]
      rcases h : (yfGetQuote t rl now f).1 with e | q'
      · simp [dlookup]
      · by_cases hmem : t ∈ norm <;> simp [hmem, dlookup]
  · rfl

/-- C5 witness: a validated singleton batch satisfies the partial-success
characterization. -/
theorem c5_get_quotes_witness :
    ∃ m rl', yfGetQuotes ["nvda"] ⟨[]⟩ 0 fetchStub = (Except.ok m, rl') ∧
      ∀ t q, dlookup m t = some q ↔
        (t ∈ ["NVDA"] ∧ (yfGetQuote t ⟨[]⟩ 0 fetchStub).1 = Except.ok q) :=
  c5_get_quotes_best_effort.1 ["nvda"] ⟨[]⟩ 0 fetchStub ["NVDA"] (by rfl)

/-- C8 counterexample: the claim says the quota-only strategy without a
credential fails with the taxonomy's `ConfigurationError`; the factory
does fail fast, but it raises the builtin `ValueError`, which is a
different exception class. -/
theorem c8_value_error_cex :
    create_provider [] ProviderStrategy.polygonOnly none =
        Except.error AppError.valueError ∧
      AppError.valueError ≠ AppError.configurationError :=
  ⟨rfl, by decide⟩

/-- C8 (amended): `create_provider` with the polygon-only strategy and no
credential (and no cached instance for that key) fails fast with a
`ValueError` — not the taxonomy's `ConfigurationError` — before
constructing any provider; no branch of `create_provider` attempts a
connection (connecting is a separate later step). -/
theorem c8_factory_amended :
    ∀ cache : List (String × Provider),
      dlookup cache (cacheKey ProviderStrategy.polygonOnly none) = none →
        create_provider cache ProviderStrategy.polygonOnly none =
          Except.error AppError.valueError := by
  intro cache h
  unfold create_provider
  rw [h]

/-- C8 witness: with an empty cache the construction fails fast. -/
theorem c8_factory_witness :
    create_provider [] ProviderStrategy.polygonOnly none =
      Except.error AppError.valueError :=
  c8_factory_amended [] rfl

/-- C9: `PolygonProvider.get_quote` never raises — it is a total function
of the two upstream responses.  It always issues the snapshot call first,
issues the last-trade call exactly when the snapshot fails to yield usable
data, builds the quote from whichever call yields usable data (always
tagged "polygon"), and returns the zero-price placeholder exactly on the
branch where both calls fail; a usable snapshot always sets
`previous_close`, so its quote is never the bare placeholder. -/
theorem c9_polygon_quote_fallback :
    ∀ (ticker : String) (now : ℚ) (snap : Except Unit (Option SnapTicker))
      (trade : Except Unit (Option TradeData)),
      ((polygonGetQuote ticker now snap trade).1.provider = some "polygon") ∧
      ((polygonGetQuote ticker now snap trade).2.head? =
        some PolyCall.snapshot) ∧
      ((polygonGetQuote ticker now snap trade).2 = [PolyCall.snapshot] ↔
        snapUsable snap = true) ∧
      (∀ st, snap = Except.ok (some st) →
        (polygonGetQuote ticker now snap trade).1 = snapQuote ticker now st) ∧
      (∀ td, snapUsable snap = false → trade = Except.ok (some td) →
        (polygonGetQuote ticker now snap trade).1 = tradeQuote ticker td) ∧
      (snapUsable snap = false → tradeUsable trade = false →
        (polygonGetQuote ticker now snap trade).1 =
          placeholderQuote ticker now) ∧
      ((placeholderQuote ticker now).price = 0) ∧
      (∀ st, snap = Except.ok (some st) →
        (polygonGetQuote ticker now snap trade).1.previous_close ≠ none) := by
  intro ticker now snap trade
  rcases snap with e | os
  · rcases trade with e' | ot
    · exact ⟨rfl, rfl, by simp [polygonGetQuote, snapUsable], by simp,
        by simp, fun _ _ => rfl, rfl, by simp⟩
    · rcases ot with _ | td
      · exact ⟨rfl, rfl, by simp [polygonGetQuote, snapUsable], by simp,
          by simp, fun _ _ => rfl, rfl, by simp⟩
      · refine ⟨rfl, rfl, by simp [polygonGetQuote, snapUsable], by simp,
          ?_, by simp [tradeUsable], rfl, by simp⟩
        intro td' _ h
        obtain rfl : td = td' := by
          have := (Except.ok.injEq ..).mp h
          exact (Option.some.injEq ..).mp this
        rfl
  · rcases os with _ | st
    · rcases trade with e' | ot
      · exact ⟨rfl, rfl, by simp [polygonGetQuote, snapUsable], by simp,
          by simp, fun _ _ => rfl, rfl, by simp⟩
      · rcases ot with _ | td
        · exact ⟨rfl, rfl, by simp [polygonGetQuote, snapUsable], by simp,
            by simp, fun _ _ => rfl, rfl, by simp⟩
        · refine ⟨rfl, rfl, by simp [polygonGetQuote, snapUsable], by simp,
            ?_, by simp [tradeUsable], rfl, by simp⟩
          intro td' _ h
          obtain rfl : td = td' := by
            have := (Except.ok.injEq ..).mp h
            exact (Option.some.injEq ..).mp this
          rfl
    · refine ⟨rfl, rfl, by simp [polygonGetQuote, snapUsable],
        ?_, by simp [snapUsable], by simp [snapUsable], rfl, ?_⟩
      · intro st' h
        obtain rfl : st = st' := by
          have := (Except.ok.injEq ..).mp h
          exact (Option.some.injEq ..).mp this
        rfl
      · intro st' _
        simp [polygonGetQuote, snapQuote]

/-- C9 witness: when both upstream calls fail, the placeholder quote is
returned. -/
theorem c9_polygon_quote_witness :
    (polygonGetQuote "AAPL" 3 (Except.error ()) (Except.error ())).1 =
      placeholderQuote "AAPL" 3 :=
  (c9_polygon_quote_fallback "AAPL" 3 (Except.error ())
    (Except.error ())).2.2.2.2.2.1 rfl rfl

/-- C10: `YFinanceProvider.get_quote` never surfaces
`RateLimitExceededError`: the local `check_limit` call is wrapped in a
catch-all that logs and proceeds, so the outcome and the number of
upstream requests are independent of the rate-limiter state, and the
returned error is never a rate-limit error. -/
theorem c10_rate_limit_swallowed :
    ∀ (ticker : String) (rl rl' : RateLimiter) (now : ℚ)
      (f : String → Except Unit YInfo),
      isRateLimitError (yfGetQuote ticker rl now f).1 = false ∧
        (yfGetQuote ticker rl now f).1 = (yfGetQuote ticker rl' now f).1 ∧
        (yfGetQuote ticker rl now f).2.2 =
          (yfGetQuote ticker rl' now f).2.2 := by
  intro ticker rl rl' now f
  refine ⟨?_, (yfGetQuote_rl_independent ticker rl rl' now f).1,
    (yfGetQuote_rl_independent ticker rl rl' now f).2⟩
  unfold yfGetQuote
  rcases validate_ticker ticker with _ | t
  · rfl
  · simp only
    rcases f t with _ | info
    · rfl
    · by_cases h : info.currentPrice = none ∧ info.regularMarketPrice = none <;>
        simp [h, isRateLimitError]
